import Mathlib

/-!
Shallow embedding of src/src/semantic-version.ts (the ssjarchon/semantic-version
package) for checking the natural-language specification against the code.

Modelling conventions:
* JavaScript runtime values that can reach the library's entry points are
  modelled by the inductive type JsValue (strings, numbers, booleans, null,
  undefined, plain objects, arrays, RegExp instances).
* JavaScript numbers are modelled by JsNum: an exact integer, a non-integer
  finite-or-infinite number (collapsed, since the code only ever distinguishes
  integer-ness, NaN-ness and safe-integer range), or NaN.
* RegExp instances that occur as policy-rule values are modelled as an opaque
  test function String -> Bool (the code only ever calls .test on them).
* localeCompare is modelled as code-point comparison on String; it is a
  locale-dependent total order in JavaScript and the claims only rely on it
  being a total order on strings.
* Exceptions are modelled with Except String; zod safeParse is modelled with
  Option (the error lists are not needed by any claim).
-/

/-- Model of a JavaScript RegExp value stored inside policy settings: the code
only calls .test on these, so we keep the test function abstract. -/
structure JsRegExp where
  test : String → Bool

/-- Model of a JavaScript number as far as this code distinguishes values. -/
inductive JsNum where
  | int (n : ℤ)
  | nonint
  | nan

/-- One element of a policy allow-list: the code dispatches at runtime on
typeof s being a string, a number, or (otherwise) a RegExp. -/
inductive Rule where
  | str (s : String)
  | num (n : JsNum)
  | pat (p : JsRegExp)

/-- A per-field policy setting, mirroring the union
"required" | "optional" | "forbidden" | (literal | RegExp)[]. -/
inductive Setting where
  | required
  | optional
  | forbidden
  | list (rs : List Rule)

/-- SemanticVersionComplianceSettings: one Setting per governed field. -/
structure SemanticVersionComplianceSettings where
  Branch : Setting
  Label : Setting
  Hotfix : Setting
  Prerelease : Setting
  Build : Setting

/-- Model of the JavaScript runtime values relevant to this library. -/
inductive JsValue where
  | undefv
  | nullv
  | bool (b : Bool)
  | num (n : JsNum)
  | str (s : String)
  | obj (fields : List (String × JsValue))
  | arr (xs : List JsValue)
  | regexp (p : JsRegExp)

/-- Property read on a JS object: a missing key reads as undefined; for a
duplicated key the later entry wins, as in JS object construction. -/
def jsGet (fields : List (String × JsValue)) (k : String) : JsValue :=
  match fields.reverse.find? (fun kv => kv.1 == k) with
  | some kv => kv.2
  | none => JsValue.undefv

/-- The JavaScript typeof operator on modelled values (typeof null is
"object", as are plain objects, arrays and RegExp instances). -/
def jsTypeof (v : JsValue) : String :=
  match v with
  | .undefv => "undefined"
  | .nullv => "object"
  | .bool _ => "boolean"
  | .num _ => "number"
  | .str _ => "string"
  | .obj _ => "object"
  | .arr _ => "object"
  | .regexp _ => "object"

/-- Number.MAX_SAFE_INTEGER, the bound enforced by z.number().safe(). -/
def maxSafeInteger : ℤ := 9007199254740991

/-- Character class [0-9] of the schema regexes. -/
def isDigitChar (c : Char) : Bool :=
  decide ((Char.ofNat 48) ≤ c) && decide (c ≤ Char.ofNat 57)

/-- Character class [1-9] of alphaNumericWithPrefixRuleRegex. -/
def isNonZeroDigitChar (c : Char) : Bool :=
  decide ((Char.ofNat 49) ≤ c) && decide (c ≤ Char.ofNat 57)

/-- Character class [a-z] under the regex i flag (case-insensitive). -/
def isLetterCharCI (c : Char) : Bool :=
  decide ((Char.ofNat 97) ≤ c.toLower) && decide (c.toLower ≤ Char.ofNat 122)

/-- One character of [0-9a-z-] under the i flag (alphaNumericRegex classes). -/
def isAlphaNumHyphenChar (c : Char) : Bool :=
  isDigitChar c || isLetterCharCI c || decide (c = Char.ofNat 45)

/-- One character of [1-9a-z-] under the i flag (first character class of
alphaNumericWithPrefixRuleRegex). -/
def isPrereleaseFirstChar (c : Char) : Bool :=
  isNonZeroDigitChar c || isLetterCharCI c || decide (c = Char.ofNat 45)

/-- String.prototype.split with separator "." over the character list of the
input: the same splitting JS performs (an empty input yields one empty
token, adjacent separators yield empty tokens). -/
def splitDot (cs : List Char) : List (List Char) :=
  match cs with
  | [] => [[]]
  | c :: rest =>
      if c = Char.ofNat 46 then [] :: splitDot rest
      else
        match splitDot rest with
        | [] => [[c]]
        | t :: ts => (c :: t) :: ts

/-- The character list left by String.prototype.trim: leading and trailing
whitespace removed. -/
def jsTrim (cs : List Char) : List Char :=
  ((cs.dropWhile Char.isWhitespace).reverse.dropWhile Char.isWhitespace).reverse

/-- A prerelease token must fully match alphaNumericWithPrefixRuleRegex,
i.e. /^[1-9a-z-][0-9a-z-]*$/ with the i flag. -/
def prereleasePieceOk (p : List Char) : Bool :=
  match p with
  | [] => false
  | c :: cs => isPrereleaseFirstChar c && cs.all isAlphaNumHyphenChar

/-- A build token must fully match alphaNumericRegex,
i.e. /^[0-9a-z-]+$/ with the i flag. -/
def buildPieceOk (p : List Char) : Bool :=
  match p with
  | [] => false
  | c :: cs => isAlphaNumHyphenChar c && cs.all isAlphaNumHyphenChar

/-- One attempt of the LabelSchema refine regex at a given character position
of the lower-cased input (the i flag makes matching case-insensitive).
The refine body runs k.match against the pattern whose three alternatives are
(1) caret then v, (2) the literal ver, and (3) an optional literal version
followed by the end anchor; operator precedence in the source regex makes the
end anchor belong only to the third alternative, and the optional quantifier
lets that alternative match the empty string at the end of any input. -/
def labelRegexMatchAt (low : List Char) (i : ℕ) : Bool :=
  (decide (i = 0) && "v".toList.isPrefixOf low)
  || "ver".toList.isPrefixOf (low.drop i)
  || (low.drop i) == "version".toList
  || decide (i = low.length)

/-- The LabelSchema refine: k.match returns a non-null result iff some
position of the input matches one of the three alternatives. -/
def labelRefine (k : String) : Bool :=
  let low := k.data.map Char.toLower
  (List.range (low.length + 1)).any (labelRegexMatchAt low)

/-- BranchSchema: z.string().min(1).optional(), checked on an already-typed
optional string. -/
def branchSchemaOk (b : Option String) : Bool :=
  match b with
  | none => true
  | some s => decide (1 ≤ s.length)

/-- LabelSchema on an already-typed optional string. -/
def labelSchemaOk (l : Option String) : Bool :=
  match l with
  | none => true
  | some s => labelRefine s

/-- MajorVersionSchema (= Minor, Patch): int, nonnegative, safe, finite,
checked on an already-typed natural number. -/
def numberSchemaOk (n : ℕ) : Bool :=
  decide ((n : ℤ) ≤ maxSafeInteger)

/-- HotfixVersionSchema on an already-typed optional natural number. -/
def hotfixSchemaOk (h : Option ℕ) : Bool :=
  match h with
  | none => true
  | some n => numberSchemaOk n

/-- PrereleaseVersionSchema on an already-typed optional string: every
dot-separated token must match alphaNumericWithPrefixRuleRegex. -/
def prereleaseSchemaOk (p : Option String) : Bool :=
  match p with
  | none => true
  | some s => (splitDot s.data).all prereleasePieceOk

/-- BuildVersionSchema on an already-typed optional string: every
dot-separated token must match alphaNumericRegex. -/
def buildSchemaOk (b : Option String) : Bool :=
  match b with
  | none => true
  | some s => (splitDot s.data).all buildPieceOk

/-- The typed result of SemanticVersionSchema.safeParse. -/
structure SemanticVersionStruct where
  branch : Option String
  label : Option String
  major : ℕ
  minor : ℕ
  patch : ℕ
  hotfix : Option ℕ
  prerelease : Option String
  build : Option String
  complianceSettings : Option SemanticVersionComplianceSettings

/-- BranchSchema applied to a raw JS value. -/
def parseBranchField (v : JsValue) : Option (Option String) :=
  match v with
  | .undefv => some none
  | .str s => if 1 ≤ s.length then some (some s) else none
  | _ => none

/-- LabelSchema applied to a raw JS value. -/
def parseLabelField (v : JsValue) : Option (Option String) :=
  match v with
  | .undefv => some none
  | .str s => if labelRefine s then some (some s) else none
  | _ => none

/-- A required z.number().int().nonnegative().safe().finite() field applied
to a raw JS value: NaN fails the number type check, non-integers fail int,
negatives fail nonnegative, oversize integers fail safe. -/
def parseRequiredNumberField (v : JsValue) : Option ℕ :=
  match v with
  | .num (.int n) => if 0 ≤ n ∧ n ≤ maxSafeInteger then some n.toNat else none
  | _ => none

/-- The optional variant of the numeric field schema (HotfixVersionSchema). -/
def parseOptionalNumberField (v : JsValue) : Option (Option ℕ) :=
  match v with
  | .undefv => some none
  | .num (.int n) => if 0 ≤ n ∧ n ≤ maxSafeInteger then some (some n.toNat) else none
  | _ => none

/-- PrereleaseVersionSchema applied to a raw JS value. -/
def parsePrereleaseField (v : JsValue) : Option (Option String) :=
  match v with
  | .undefv => some none
  | .str s => if (splitDot s.data).all prereleasePieceOk then some (some s) else none
  | _ => none

/-- BuildVersionSchema applied to a raw JS value. -/
def parseBuildField (v : JsValue) : Option (Option String) :=
  match v with
  | .undefv => some none
  | .str s => if (splitDot s.data).all buildPieceOk then some (some s) else none
  | _ => none

/-- One element of a string-field policy list: z.union of z.string() and
z.instanceof(RegExp). -/
def parseStrRule (v : JsValue) : Option Rule :=
  match v with
  | .str s => some (.str s)
  | .regexp p => some (.pat p)
  | _ => none

/-- One element of the Hotfix policy list: z.union of z.number() and
z.instanceof(RegExp); z.number() rejects NaN but accepts any other number. -/
def parseNumRule (v : JsValue) : Option Rule :=
  match v with
  | .num (.int n) => some (.num (.int n))
  | .num .nonint => some (.num .nonint)
  | .regexp p => some (.pat p)
  | _ => none

/-- Element-wise parse of a z.array: succeeds iff every element parses. -/
def parseRuleList (f : JsValue → Option Rule) : List JsValue → Option (List Rule)
  | [] => some []
  | x :: xs => do
      let r ← f x
      let rs ← parseRuleList f xs
      some (r :: rs)

/-- A string-field policy setting: the union of the three literals and an
array of string-or-RegExp rules, with .default("optional") turning undefined
into "optional". -/
def parseStrSetting (v : JsValue) : Option Setting :=
  match v with
  | .undefv => some .optional
  | .str s =>
      if s = "required" then some .required
      else if s = "optional" then some .optional
      else if s = "forbidden" then some .forbidden
      else none
  | .arr xs => (parseRuleList parseStrRule xs).map Setting.list
  | _ => none

/-- The Hotfix policy setting: like parseStrSetting but with numeric list
elements. -/
def parseNumSetting (v : JsValue) : Option Setting :=
  match v with
  | .undefv => some .optional
  | .str s =>
      if s = "required" then some .required
      else if s = "optional" then some .optional
      else if s = "forbidden" then some .forbidden
      else none
  | .arr xs => (parseRuleList parseNumRule xs).map Setting.list
  | _ => none

/-- The inner complianceSettings object schema. zod classifies any non-array,
non-null object (including a RegExp instance) as parsed type object and reads
the five keys off it; each missing key falls back to "optional" via
.default. Arrays and primitives are rejected. -/
def parseSettingsObject (v : JsValue) : Option SemanticVersionComplianceSettings :=
  match v with
  | .obj fs => do
      let b ← parseStrSetting (jsGet fs "Branch")
      let l ← parseStrSetting (jsGet fs "Label")
      let h ← parseNumSetting (jsGet fs "Hotfix")
      let p ← parseStrSetting (jsGet fs "Prerelease")
      let bu ← parseStrSetting (jsGet fs "Build")
      some ⟨b, l, h, p, bu⟩
  | .regexp _ =>
      -- a RegExp is typeof object with none of the five keys, so every
      -- field takes its default
      some ⟨.optional, .optional, .optional, .optional, .optional⟩
  | _ => none

/-- The complianceSettings field of SemanticVersionSchema:
the inner object schema wrapped in .optional(). -/
def parseSettingsField (v : JsValue) : Option (Option SemanticVersionComplianceSettings) :=
  match v with
  | .undefv => some none
  | _ => (parseSettingsObject v).map some

/-- SemanticVersionSchema.safeParse on a raw JS value. z.object rejects
non-objects, null and arrays; a RegExp instance is classified as an object
but has none of the schema keys, so the required major field fails. Unknown
keys are stripped. -/
def semanticVersionSchemaParse (v : JsValue) : Option SemanticVersionStruct :=
  match v with
  | .obj fs => do
      let branch ← parseBranchField (jsGet fs "branch")
      let label ← parseLabelField (jsGet fs "label")
      let major ← parseRequiredNumberField (jsGet fs "major")
      let minor ← parseRequiredNumberField (jsGet fs "minor")
      let patch ← parseRequiredNumberField (jsGet fs "patch")
      let hotfix ← parseOptionalNumberField (jsGet fs "hotfix")
      let prerelease ← parsePrereleaseField (jsGet fs "prerelease")
      let build ← parseBuildField (jsGet fs "build")
      let complianceSettings ← parseSettingsField (jsGet fs "complianceSettings")
      some ⟨branch, label, major, minor, patch, hotfix, prerelease, build, complianceSettings⟩
  | _ => none

/-- The immutable version value: the underscore-prefixed instance fields of
class SemanticVersion. -/
structure SemanticVersion where
  branch : Option String
  label : Option String
  major : ℕ
  minor : ℕ
  patch : ℕ
  hotfix : Option ℕ
  prerelease : Option String
  build : Option String
  complianceSettings : SemanticVersionComplianceSettings

/-- Encode an optional string back into the JS value stored on the instance
(an absent field is the value undefined). -/
def encodeOptStr (s : Option String) : JsValue :=
  match s with
  | none => .undefv
  | some t => .str t

/-- Encode an optional number back into the JS value stored on the instance. -/
def encodeOptNat (n : Option ℕ) : JsValue :=
  match n with
  | none => .undefv
  | some m => .num (.int (m : ℤ))

/-- Encode a policy rule back into its JS representation. -/
def encodeRule (r : Rule) : JsValue :=
  match r with
  | .str s => .str s
  | .num j => .num j
  | .pat p => .regexp p

/-- Encode a policy setting back into its JS representation. -/
def encodeSetting (s : Setting) : JsValue :=
  match s with
  | .required => .str "required"
  | .optional => .str "optional"
  | .forbidden => .str "forbidden"
  | .list rs => .arr (rs.map encodeRule)

/-- Encode a settings record back into its JS object representation. -/
def encodeSettings (cs : SemanticVersionComplianceSettings) : JsValue :=
  .obj [("Branch", encodeSetting cs.Branch),
        ("Label", encodeSetting cs.Label),
        ("Hotfix", encodeSetting cs.Hotfix),
        ("Prerelease", encodeSetting cs.Prerelease),
        ("Build", encodeSetting cs.Build)]

/-- Encode an optional settings record (absent = undefined). -/
def encodeOptSettings (cs : Option SemanticVersionComplianceSettings) : JsValue :=
  match cs with
  | none => .undefv
  | some c => encodeSettings c

/-- The JS object form of a parsed struct, as zod returns it from safeParse
(parsed.data): the schema keys with their typed values. A key whose optional
field is absent reads as undefined either way, which jsGet reproduces. -/
def structToJs (st : SemanticVersionStruct) : JsValue :=
  .obj [("branch", encodeOptStr st.branch),
        ("label", encodeOptStr st.label),
        ("major", .num (.int (st.major : ℤ))),
        ("minor", .num (.int (st.minor : ℤ))),
        ("patch", .num (.int (st.patch : ℤ))),
        ("hotfix", encodeOptNat st.hotfix),
        ("prerelease", encodeOptStr st.prerelease),
        ("build", encodeOptStr st.build),
        ("complianceSettings", encodeOptSettings st.complianceSettings)]

/-- Build the instance from a successfully parsed struct: the constructor
copies the eight fields and resolves settings as
parsed.data.complianceSettings ?? SemanticVersion._complianceSettings. -/
def mkFromStruct (defaults : SemanticVersionComplianceSettings)
    (st : SemanticVersionStruct) : SemanticVersion :=
  { branch := st.branch
    label := st.label
    major := st.major
    minor := st.minor
    patch := st.patch
    hotfix := st.hotfix
    prerelease := st.prerelease
    build := st.build
    complianceSettings := st.complianceSettings.getD defaults }

/-- The null/undefined initializer branch of the constructor: major 0,
minor 0, patch 1, everything else absent, settings from the static default. -/
def nullInitVersion (defaults : SemanticVersionComplianceSettings) : SemanticVersion :=
  { branch := none
    label := none
    major := 0
    minor := 0
    patch := 1
    hotfix := none
    prerelease := none
    build := none
    complianceSettings := defaults }

/-- The constructor of class SemanticVersion, with the process-wide static
default settings passed explicitly as state. A string initializer always
throws: when the regex does not match the constructor throws directly, and
when it does match the groups property of the match result is undefined
(String.prototype.match with a global-flagged regex returns a bare array of
match strings), so schema validation of undefined fails and the constructor
throws the zod message instead; no claim depends on which of the two message
texts is thrown, so the no-match text stands in for both. The empty string is
falsy and reaches the final invalid-initializer throw. An object initializer
is schema-validated (arrays and RegExp instances are typeof object and fail
validation for lack of the required numeric fields). -/
def constructVersion (defaults : SemanticVersionComplianceSettings)
    (init : JsValue) : Except String SemanticVersion :=
  match init with
  | .str s =>
      if s.length = 0 then .error "Invalid Semantic Version Initializer"
      else .error "Invalid Semantic Version String"
  | .obj fs =>
      match semanticVersionSchemaParse (.obj fs) with
      | some st => .ok (mkFromStruct defaults st)
      | none => .error "Semantic Version schema validation failed"
  | .arr xs =>
      match semanticVersionSchemaParse (.arr xs) with
      | some st => .ok (mkFromStruct defaults st)
      | none => .error "Semantic Version schema validation failed"
  | .regexp p =>
      match semanticVersionSchemaParse (.regexp p) with
      | some st => .ok (mkFromStruct defaults st)
      | none => .error "Semantic Version schema validation failed"
  | .nullv => .ok (nullInitVersion defaults)
  | .undefv => .ok (nullInitVersion defaults)
  | .bool _ => .error "Invalid Semantic Version Initializer"
  | .num _ => .error "Invalid Semantic Version Initializer"

/-- SemanticVersion.tryParse. For a string input the code reads
input.match(semanticVersionRegex)?.groups; with the global flag the match
result (whether null or a bare array of matched strings) has no groups
property, so obj is undefined for every string. For an object input obj is
the input itself; null and non-objects give undefined. When the schema parse
succeeds, the code calls the constructor on parsed.data. -/
def tryParse (defaults : SemanticVersionComplianceSettings)
    (input : JsValue) : Except String (Option SemanticVersion) :=
  let obj : Option JsValue :=
    match input with
    | .str _ => none
    | .obj fs => some (.obj fs)
    | .arr xs => some (.arr xs)
    | .regexp p => some (.regexp p)
    | _ => none
  match obj with
  | some o =>
      match semanticVersionSchemaParse o with
      | some st => (constructVersion defaults (structToJs st)).map some
      | none => .ok none
  | none => .ok none

/-- setDefaultComplianceSettings in state-passing form: it replaces the
process-wide static default with the supplied settings. -/
def setDefaultComplianceSettings (settings : SemanticVersionComplianceSettings) :
    SemanticVersionComplianceSettings :=
  settings

/-- The own enumerable properties of a SemanticVersion instance in insertion
order, as object spread sees them: the constructor assigns
_complianceSettings first, then the eight underscore-prefixed fields.
TypeScript private is erased at runtime, so spread copies these keys. -/
def spreadOwn (v : SemanticVersion) : List (String × JsValue) :=
  [("_complianceSettings", encodeSettings v.complianceSettings),
   ("_branch", encodeOptStr v.branch),
   ("_label", encodeOptStr v.label),
   ("_major", .num (.int (v.major : ℤ))),
   ("_minor", .num (.int (v.minor : ℤ))),
   ("_patch", .num (.int (v.patch : ℤ))),
   ("_hotfix", encodeOptNat v.hotfix),
   ("_prerelease", encodeOptStr v.prerelease),
   ("_build", encodeOptStr v.build)]

/-- changeBranch: new SemanticVersion with spread of this plus a branch key. -/
def SemanticVersion.changeBranch (defaults : SemanticVersionComplianceSettings)
    (v : SemanticVersion) (branch : Option String) : Except String SemanticVersion :=
  constructVersion defaults (.obj (spreadOwn v ++ [("branch", encodeOptStr branch)]))

/-- changeLabel. -/
def SemanticVersion.changeLabel (defaults : SemanticVersionComplianceSettings)
    (v : SemanticVersion) (label : Option String) : Except String SemanticVersion :=
  constructVersion defaults (.obj (spreadOwn v ++ [("label", encodeOptStr label)]))

/-- changeMajor. -/
def SemanticVersion.changeMajor (defaults : SemanticVersionComplianceSettings)
    (v : SemanticVersion) (major : ℕ) : Except String SemanticVersion :=
  constructVersion defaults (.obj (spreadOwn v ++ [("major", .num (.int (major : ℤ)))]))

/-- changeMinor. -/
def SemanticVersion.changeMinor (defaults : SemanticVersionComplianceSettings)
    (v : SemanticVersion) (minor : ℕ) : Except String SemanticVersion :=
  constructVersion defaults (.obj (spreadOwn v ++ [("minor", .num (.int (minor : ℤ)))]))

/-- changePatch. -/
def SemanticVersion.changePatch (defaults : SemanticVersionComplianceSettings)
    (v : SemanticVersion) (patch : ℕ) : Except String SemanticVersion :=
  constructVersion defaults (.obj (spreadOwn v ++ [("patch", .num (.int (patch : ℤ)))]))

/-- changeHotfix. -/
def SemanticVersion.changeHotfix (defaults : SemanticVersionComplianceSettings)
    (v : SemanticVersion) (hotfix : Option ℕ) : Except String SemanticVersion :=
  constructVersion defaults (.obj (spreadOwn v ++ [("hotfix", encodeOptNat hotfix)]))

/-- changePrerelease. -/
def SemanticVersion.changePrerelease (defaults : SemanticVersionComplianceSettings)
    (v : SemanticVersion) (prerelease : Option String) : Except String SemanticVersion :=
  constructVersion defaults (.obj (spreadOwn v ++ [("prerelease", encodeOptStr prerelease)]))

/-- changeBuild. -/
def SemanticVersion.changeBuild (defaults : SemanticVersionComplianceSettings)
    (v : SemanticVersion) (build : Option String) : Except String SemanticVersion :=
  constructVersion defaults (.obj (spreadOwn v ++ [("build", encodeOptStr build)]))

/-- incrementMajor: spread of this with major+1, minor 0, patch 0 and the
three qualifiers explicitly undefined. -/
def SemanticVersion.incrementMajor (defaults : SemanticVersionComplianceSettings)
    (v : SemanticVersion) : Except String SemanticVersion :=
  constructVersion defaults (.obj (spreadOwn v ++
    [("major", .num (.int ((v.major : ℤ) + 1))),
     ("minor", .num (.int 0)),
     ("patch", .num (.int 0)),
     ("hotfix", .undefv),
     ("prerelease", .undefv),
     ("build", .undefv)]))

/-- incrementMinor: spread of this with minor+1, patch 0 and the qualifiers
undefined; note that no major key is supplied. -/
def SemanticVersion.incrementMinor (defaults : SemanticVersionComplianceSettings)
    (v : SemanticVersion) : Except String SemanticVersion :=
  constructVersion defaults (.obj (spreadOwn v ++
    [("minor", .num (.int ((v.minor : ℤ) + 1))),
     ("patch", .num (.int 0)),
     ("hotfix", .undefv),
     ("prerelease", .undefv),
     ("build", .undefv)]))

/-- incrementPatch: spread of this with patch+1 and the qualifiers undefined;
no major or minor key is supplied. -/
def SemanticVersion.incrementPatch (defaults : SemanticVersionComplianceSettings)
    (v : SemanticVersion) : Except String SemanticVersion :=
  constructVersion defaults (.obj (spreadOwn v ++
    [("patch", .num (.int ((v.patch : ℤ) + 1))),
     ("hotfix", .undefv),
     ("prerelease", .undefv),
     ("build", .undefv)]))

/-- incrementHotfix: spread of this with hotfix (current ?? 0) + 1 and the
non-numeric qualifiers undefined; no major, minor or patch key is supplied. -/
def SemanticVersion.incrementHotfix (defaults : SemanticVersionComplianceSettings)
    (v : SemanticVersion) : Except String SemanticVersion :=
  constructVersion defaults (.obj (spreadOwn v ++
    [("hotfix", .num (.int ((v.hotfix.getD 0 : ℤ) + 1))),
     ("prerelease", .undefv),
     ("build", .undefv)]))

/-- Strict lexicographic code-point comparison of character lists. -/
def charListLt (a b : List Char) : Bool :=
  match a, b with
  | [], [] => false
  | [], _ :: _ => true
  | _ :: _, [] => false
  | c :: cs, d :: ds => if c < d then true else if d < c then false else charListLt cs ds

/-- Model of String.prototype.localeCompare: an (implementation-defined)
total order on strings returning a negative, zero or positive number; we use
code-point comparison, the claims rely only on the total-order structure. -/
def localeCompare (s t : String) : ℤ :=
  if charListLt s.data t.data then -1 else if charListLt t.data s.data then 1 else 0

/-- comparePrecedence: branch (absent as empty string), then major, minor,
patch numerically, then hotfix (absent as 0). -/
def SemanticVersion.comparePrecedence (a b : SemanticVersion) : ℤ :=
  if a.branch ≠ b.branch then localeCompare (a.branch.getD "") (b.branch.getD "")
  else if a.major ≠ b.major then (a.major : ℤ) - (b.major : ℤ)
  else if a.minor ≠ b.minor then (a.minor : ℤ) - (b.minor : ℤ)
  else if a.patch ≠ b.patch then (a.patch : ℤ) - (b.patch : ℤ)
  else if a.hotfix ≠ b.hotfix then (a.hotfix.getD 0 : ℤ) - (b.hotfix.getD 0 : ℤ)
  else 0

/-- The static compare method delegates to comparePrecedence. -/
def SemanticVersion.compare (a b : SemanticVersion) : ℤ :=
  SemanticVersion.comparePrecedence a b

/-- toString: branch and label each followed by a space when present, the
numeric triple, then dot-hotfix, hyphen-prerelease and plus-build when
present. -/
def SemanticVersion.toString (v : SemanticVersion) : String :=
  (match v.branch with | some b => b ++ " " | none => "") ++
  (match v.label with | some l => l ++ " " | none => "") ++
  Nat.repr v.major ++ "." ++ Nat.repr v.minor ++ "." ++ Nat.repr v.patch ++
  (match v.hotfix with | some h => "." ++ Nat.repr h | none => "") ++
  (match v.prerelease with | some p => "-" ++ p | none => "") ++
  (match v.build with | some b => "+" ++ b | none => "")

/-- Message severity of a ComplianceMessage. -/
inductive MsgType where
  | error
  | warning
  | info
deriving DecidableEq

/-- One compliance message; standard-compliance entries also carry the field
name the code attaches to them. -/
structure ComplianceMessage where
  field : String
  message : String
  type : MsgType
deriving DecidableEq

/-- The result shape of checkStandardCompliance and checkCustomCompliance. -/
structure ComplianceResult where
  success : Bool
  messages : List ComplianceMessage

/-- JS truthiness of an optional string field value. -/
def optStrTruthy (s : Option String) : Bool :=
  match s with
  | none => false
  | some t => decide (t ≠ "")

/-- The eight entries (before null filtering) of the message array built by
checkStandardCompliance. In strict mode the Branch and Hotfix entries are
always present with severity error when the field is present and info when
absent, and a Label entry with severity error is present when the label is
truthy; otherwise each field is checked against its schema. -/
def standardEntries (v : SemanticVersion) (strict : Bool) : List (Option ComplianceMessage) :=
    [ if strict then
        some ⟨"Branch", "Branch is not a standard notation",
              if v.branch.isSome then .error else .info⟩
      else if branchSchemaOk v.branch then none
      else some ⟨"Branch", "Branch does not match required format", .error⟩,
      if strict && optStrTruthy v.label then
        some ⟨"Label", "Label is not a standard notation", .error⟩
      else if labelSchemaOk v.label then none
      else some ⟨"Label", "Label does not match required format", .error⟩,
      if numberSchemaOk v.major then none
      else some ⟨"Major", "Major Version does not match required format", .error⟩,
      if numberSchemaOk v.minor then none
      else some ⟨"Minor", "Minor Version does not match required format", .error⟩,
      if numberSchemaOk v.patch then none
      else some ⟨"Patch", "Patch Version does not match required format", .error⟩,
      if strict then
        some ⟨"Hotfix", "Hotfix is not a standard notation",
              if v.hotfix.isSome then .error else .info⟩
      else if hotfixSchemaOk v.hotfix then none
      else some ⟨"Hotfix", "Hotfix Version does not match required format", .error⟩,
      if prereleaseSchemaOk v.prerelease then none
      else some ⟨"Prerelease", "Prerelease Version does not match required format", .error⟩,
      if buildSchemaOk v.build then none
      else some ⟨"Build", "Build Version does not match required format", .error⟩ ]

/-- checkStandardCompliance: the entries with nulls filtered out; success is
true iff no remaining message has type error. -/
def checkStandardCompliance (v : SemanticVersion) (strict : Bool) : ComplianceResult :=
  ⟨!((standardEntries v strict).filterMap id).any (fun m => m.type == MsgType.error),
   (standardEntries v strict).filterMap id⟩

/-- isStandardCompliant. -/
def SemanticVersion.isStandardCompliant (v : SemanticVersion) (strict : Bool) : Bool :=
  (checkStandardCompliance v strict).success

/-- The five governed policy fields. -/
inductive SettingKey where
  | Branch
  | Label
  | Hotfix
  | Prerelease
  | Build
deriving DecidableEq

/-- Display name of a governed field, used inside message texts. -/
def settingKeyName (k : SettingKey) : String :=
  match k with
  | .Branch => "Branch"
  | .Label => "Label"
  | .Hotfix => "Hotfix"
  | .Prerelease => "Prerelease"
  | .Build => "Build"

/-- The runtime value struct[key] read off the instance for a governed
field: an optional string for four of them, an optional number for Hotfix. -/
inductive FieldVal where
  | str (s : String)
  | num (n : ℕ)
  | undefv

/-- struct[key] for each governed key. -/
def fieldValue (v : SemanticVersion) (k : SettingKey) : FieldVal :=
  match k with
  | .Branch => match v.branch with | some s => .str s | none => .undefv
  | .Label => match v.label with | some s => .str s | none => .undefv
  | .Prerelease => match v.prerelease with | some s => .str s | none => .undefv
  | .Build => match v.build with | some s => .str s | none => .undefv
  | .Hotfix => match v.hotfix with | some n => .num n | none => .undefv

/-- struct.ComplianceSettings[key]. -/
def settingFor (v : SemanticVersion) (k : SettingKey) : Setting :=
  match k with
  | .Branch => v.complianceSettings.Branch
  | .Label => v.complianceSettings.Label
  | .Hotfix => v.complianceSettings.Hotfix
  | .Prerelease => v.complianceSettings.Prerelease
  | .Build => v.complianceSettings.Build

/-- JS truthiness of a field value (undefined and the empty string and 0 are
falsy). -/
def fvTruthy (fv : FieldVal) : Bool :=
  match fv with
  | .str s => decide (s ≠ "")
  | .num n => decide (n ≠ 0)
  | .undefv => false

/-- typeof struct[key]. -/
def fvTypeof (fv : FieldVal) : String :=
  match fv with
  | .str _ => "string"
  | .num _ => "number"
  | .undefv => "undefined"

/-- The third disjunct of the required check:
(struct[key] as string).trim().length > 0. It is only reached when the first
two disjuncts are false, i.e. on a truthy string; on other values the
disjunction's result is already determined, so the value returned here is
immaterial. -/
def fvTrimPositive (fv : FieldVal) : Bool :=
  match fv with
  | .str s => decide (0 < (jsTrim s.data).length)
  | _ => true

/-- struct[key].toString() under the truthiness guard of the pattern rule:
the code stringifies a truthy value and uses the empty string otherwise. -/
def fvPatInput (fv : FieldVal) : String :=
  if fvTruthy fv then
    match fv with
    | .str s => s
    | .num n => Nat.repr n
    | .undefv => ""
  else ""

/-- Whether one list rule accepts the field value: a string literal compares
with strict equality (with the empty-string literal meaning the field must be
absent), a number literal compares with strict equality, and a RegExp tests
the stringified value. -/
def ruleMatches (fv : FieldVal) (r : Rule) : Bool :=
  match r with
  | .str s =>
      if s = "" then
        match fv with | .undefv => true | _ => false
      else
        match fv with | .str t => decide (s = t) | _ => false
  | .num j =>
      match j, fv with
      | .int n, .num m => decide (n = (m : ℤ))
      | _, _ => false
  | .pat p => p.test (fvPatInput fv)

/-- checkCustomComplianceForSingleSetting: for the required setting the code
reports a violation when the field is falsy, of the wrong runtime type, or
(for string-typed fields) has positive trimmed length; for forbidden, when
the field is not undefined; optional always passes; a list passes iff some
rule matches. -/
def checkCustomComplianceForSingleSetting (k : SettingKey) (v : SemanticVersion) :
    ComplianceResult :=
  let setting := settingFor v k
  let expectedTypeIsString := k ≠ SettingKey.Hotfix
  let fv := fieldValue v k
  match setting with
  | .required =>
      if !(fvTruthy fv)
          || (fvTypeof fv != (if expectedTypeIsString then "string" else "number"))
          || (if expectedTypeIsString then fvTrimPositive fv else true) then
        ⟨false, [⟨settingKeyName k,
                  "Semantic Version Setting " ++ settingKeyName k ++ " is required",
                  .error⟩]⟩
      else ⟨true, []⟩
  | .forbidden =>
      match fv with
      | .undefv => ⟨true, []⟩
      | _ => ⟨false, [⟨settingKeyName k,
                       "Semantic Version Setting " ++ settingKeyName k ++ " is forbidden",
                       .error⟩]⟩
  | .optional => ⟨true, []⟩
  | .list rs =>
      if rs.any (ruleMatches fv) then ⟨true, []⟩
      else ⟨false, [⟨settingKeyName k,
                     "Semantic Version Setting " ++ settingKeyName k
                       ++ " does not match required format",
                     .error⟩]⟩

/-- checkCustomCompliance: the five per-field reports; success is the
conjunction and the messages are concatenated. -/
def checkCustomCompliance (v : SemanticVersion) : ComplianceResult :=
  let reports :=
    [checkCustomComplianceForSingleSetting .Branch v,
     checkCustomComplianceForSingleSetting .Label v,
     checkCustomComplianceForSingleSetting .Hotfix v,
     checkCustomComplianceForSingleSetting .Prerelease v,
     checkCustomComplianceForSingleSetting .Build v]
  ⟨reports.all (fun r => r.success), reports.flatMap (fun r => r.messages)⟩

/-- isCustomCompliant. -/
def SemanticVersion.isCustomCompliant (v : SemanticVersion) : Bool :=
  (checkCustomCompliance v).success

/-- The all-optional settings record (what the inner settings schema yields
for an empty object, every field defaulted). -/
def allOptionalSettings : SemanticVersionComplianceSettings :=
  ⟨.optional, .optional, .optional, .optional, .optional⟩

/-- A plain version 1.2.3 with no optional fields. -/
def v123 : SemanticVersion :=
  ⟨none, none, 1, 2, 3, none, none, none, allOptionalSettings⟩

/-- A fully populated version: branch dev, label v, 1.2.3.4-beta+b1. -/
def vFull : SemanticVersion :=
  ⟨some "dev", some "v", 1, 2, 3, some 4, some "beta", some "b1", allOptionalSettings⟩

/-- Version 1.0.0 on branch main whose Branch policy setting is required. -/
def vMain : SemanticVersion :=
  ⟨some "main", none, 1, 0, 0, none, none, none,
   ⟨.required, .optional, .optional, .optional, .optional⟩⟩

/-- Version 1.0.0 whose branch is a single space (whitespace-only but
non-empty, hence accepted by BranchSchema) under a required Branch policy. -/
def vSpace : SemanticVersion :=
  ⟨some " ", none, 1, 0, 0, none, none, none,
   ⟨.required, .optional, .optional, .optional, .optional⟩⟩

/-- Version 1.0.0 on branch dev with default (all-optional) policy. -/
def vDev : SemanticVersion :=
  ⟨some "dev", none, 1, 0, 0, none, none, none, allOptionalSettings⟩

/-- C1: the spec claims parse(render(v)) reproduces every field of v; in the
code the round trip fails for every Version: rendering v123 yields "1.2.3",
and tryParse of any rendered string returns undefined, because
String.prototype.match with the global-flagged semanticVersionRegex returns
a result without a groups property (and even with groups, the capture names
are capitalized while the schema keys are lower-case and numeric fields are
validated as numbers, not strings). -/
theorem c1_parse_of_render_is_undefined :
    (∀ (g : SemanticVersionComplianceSettings) (v : SemanticVersion),
      tryParse g (JsValue.str (SemanticVersion.toString v)) = Except.ok none) ∧
    SemanticVersion.toString v123 = "1.2.3" := by
  exact ⟨fun g v => rfl, rfl⟩

/-- C2: the spec claims "release 2.0.0.5-beta.1+build.007" parses with
branch release and the shown fields; in the code tryParse of that string
returns undefined (the regex has no Branch capture group at all, and the
string path of tryParse never produces fields because the global-flagged
match has no groups property). -/
theorem c2_release_string_does_not_parse :
    tryParse allOptionalSettings (JsValue.str "release 2.0.0.5-beta.1+build.007")
      = Except.ok none := rfl

/-- C3: the spec claims all four increments return reset versions; in the
code only incrementMajor returns (and it also drops branch and label, since
object spread copies the underscore-prefixed private fields so the branch
and label schema keys are absent), while incrementMinor, incrementPatch and
incrementHotfix always throw: the spread object has no major key (nor minor,
patch respectively), so the required numeric schema fields fail validation
and the constructor throws. -/
theorem c3_increment_operations_throw :
    SemanticVersion.incrementMajor allOptionalSettings vFull
      = Except.ok ⟨none, none, 2, 0, 0, none, none, none, allOptionalSettings⟩ ∧
    (∃ e, SemanticVersion.incrementMinor allOptionalSettings vFull = Except.error e) ∧
    (∃ e, SemanticVersion.incrementPatch allOptionalSettings vFull = Except.error e) ∧
    (∃ e, SemanticVersion.incrementHotfix allOptionalSettings vFull = Except.error e) := by
  exact ⟨rfl, ⟨_, rfl⟩, ⟨_, rfl⟩, ⟨_, rfl⟩⟩

/-- C4: the spec claims each changeX replaces exactly one field and copies
the rest; in the code every changeX throws: the spread copies the
underscore-prefixed private fields, so the object passed to the constructor
lacks the required lower-case major/minor/patch keys (except the one being
changed) and schema validation fails. -/
theorem c4_change_operations_throw :
    (∃ e, SemanticVersion.changeBranch allOptionalSettings v123 (some "dev")
            = Except.error e) ∧
    (∃ e, SemanticVersion.changeMajor allOptionalSettings v123 7 = Except.error e) ∧
    (∃ e, SemanticVersion.changePrerelease allOptionalSettings v123 (some "rc1")
            = Except.error e) := by
  exact ⟨⟨_, rfl⟩, ⟨_, rfl⟩, ⟨_, rfl⟩⟩

/-- C6: the spec claims a required field passes when present and non-empty;
in the code the third disjunct of the violation test is trim().length > 0
(rather than = 0), so branch main under a required Branch setting is
reported as a violation, while a whitespace-only branch passes. -/
theorem c6_required_check_is_inverted :
    (checkCustomComplianceForSingleSetting SettingKey.Branch vMain).success = false ∧
    (checkCustomComplianceForSingleSetting SettingKey.Branch vMain).messages
      = [⟨"Branch", "Semantic Version Setting Branch is required", MsgType.error⟩] ∧
    (checkCustomComplianceForSingleSetting SettingKey.Branch vSpace).success = true := by
  exact ⟨rfl, rfl, rfl⟩

/-- C8: the spec claims LabelSchema accepts only the empty string or
v/ver/version case-insensitively; in the code the refine regex
(caret v | ver | optional version then end) matches the empty string at the
end of every input through its third alternative, so every string is
accepted, for example "xyz". -/
theorem c8_label_schema_accepts_every_string :
    (∀ k : String, labelRefine k = true) ∧
    parseLabelField (JsValue.str "xyz") = some (some "xyz") := by
  constructor
  · intro k
    unfold labelRefine
    rw [List.any_eq_true]
    refine ⟨(k.data.map Char.toLower).length, ?_, ?_⟩
    · exact List.mem_range.mpr (Nat.lt_succ_self _)
    · simp [labelRegexMatchAt]
  · rfl

/-- C7 counterexample: the claim says a present branch produces a message
with severity info under strict standard compliance; on branch dev the
single Branch message has severity error. -/
theorem c7_counterexample_present_branch_is_error :
    vDev.branch.isSome = true ∧
    (checkStandardCompliance vDev true).messages.filter (fun m => m.field == "Branch")
      = [⟨"Branch", "Branch is not a standard notation", MsgType.error⟩] := ⟨rfl, rfl⟩

/-- C7 amended: in strict-mode standard compliance a Branch message is
always emitted with severity error when branch is present and info when it
is absent; a non-empty label and a present hotfix each produce a message
with severity error; and the overall success flag is true iff no message
has kind error. -/
theorem c7_strict_mode_severities (v : SemanticVersion) :
    ((⟨"Branch", "Branch is not a standard notation",
        if v.branch.isSome then MsgType.error else MsgType.info⟩ : ComplianceMessage)
      ∈ (checkStandardCompliance v true).messages) ∧
    (∀ s, v.label = some s → s ≠ "" →
      (⟨"Label", "Label is not a standard notation", MsgType.error⟩ : ComplianceMessage)
        ∈ (checkStandardCompliance v true).messages) ∧
    (v.hotfix.isSome = true →
      (⟨"Hotfix", "Hotfix is not a standard notation", MsgType.error⟩ : ComplianceMessage)
        ∈ (checkStandardCompliance v true).messages) ∧
    ((checkStandardCompliance v true).success = true ↔
      ∀ m ∈ (checkStandardCompliance v true).messages, m.type ≠ MsgType.error) := by
  refine ⟨?_, ?_, ?_, ?_⟩
  · simp only [checkStandardCompliance, standardEntries]
    apply List.mem_filterMap.mpr
    refine ⟨some ⟨"Branch", "Branch is not a standard notation",
      if v.branch.isSome then MsgType.error else MsgType.info⟩, ?_, rfl⟩
    simp
  · intro s hs hne
    simp only [checkStandardCompliance, standardEntries]
    apply List.mem_filterMap.mpr
    refine ⟨some ⟨"Label", "Label is not a standard notation", MsgType.error⟩, ?_, rfl⟩
    have : optStrTruthy v.label = true := by simp [optStrTruthy, hs, hne]
    simp [this]
  · intro h
    simp only [checkStandardCompliance, standardEntries]
    apply List.mem_filterMap.mpr
    refine ⟨some ⟨"Hotfix", "Hotfix is not a standard notation",
      if v.hotfix.isSome then MsgType.error else MsgType.info⟩, ?_, ?_⟩
    · simp
    · simp [h]
  · simp only [checkStandardCompliance]
    constructor
    · intro h m hm
      rw [Bool.not_eq_true'] at h
      rw [List.any_eq_false] at h
      have := h m hm
      simpa using this
    · intro h
      rw [Bool.not_eq_true', List.any_eq_false]
      intro m hm
      simpa using h m hm

/-- A strict-mode exercise version: branch x, label ver, hotfix 1. -/
def vStrictFull : SemanticVersion :=
  ⟨some "x", some "ver", 1, 0, 0, some 1, none, none, allOptionalSettings⟩

/-- Witness for the C7 amended theorem at a concrete version with a
non-empty label and a present hotfix. -/
theorem c7_strict_mode_severities_witness :
    ((⟨"Label", "Label is not a standard notation", MsgType.error⟩ : ComplianceMessage)
      ∈ (checkStandardCompliance vStrictFull true).messages) ∧
    ((⟨"Hotfix", "Hotfix is not a standard notation", MsgType.error⟩ : ComplianceMessage)
      ∈ (checkStandardCompliance vStrictFull true).messages) :=
  ⟨(c7_strict_mode_severities vStrictFull).2.1 "ver" rfl (by decide),
   (c7_strict_mode_severities vStrictFull).2.2.1 rfl⟩

/-- Re-parsing the zod output of a successful branch-field parse succeeds
with the same value. -/
theorem parseBranchField_roundtrip (j : JsValue) (ob : Option String)
    (h : parseBranchField j = some ob) :
    parseBranchField (encodeOptStr ob) = some ob := by
  cases j <;> simp only [parseBranchField] at h <;> try exact Option.noConfusion h
  case undefv =>
    injection h with h2
    subst h2
    rfl
  case str s =>
    by_cases hc : 1 ≤ s.length
    · rw [if_pos hc] at h
      injection h with h2
      subst h2
      simp only [encodeOptStr, parseBranchField]
      rw [if_pos hc]
    · rw [if_neg hc] at h
      exact Option.noConfusion h

theorem parseLabelField_roundtrip (j : JsValue) (ob : Option String)
    (h : parseLabelField j = some ob) :
    parseLabelField (encodeOptStr ob) = some ob := by
  cases j <;> simp only [parseLabelField] at h <;> try exact Option.noConfusion h
  case undefv =>
    injection h with h2
    subst h2
    rfl
  case str s =>
    by_cases hc : labelRefine s = true
    · rw [if_pos hc] at h
      injection h with h2
      subst h2
      simp only [encodeOptStr, parseLabelField]
      rw [if_pos hc]
    · rw [if_neg hc] at h
      exact Option.noConfusion h

theorem parseRequiredNumberField_roundtrip (j : JsValue) (n : ℕ)
    (h : parseRequiredNumberField j = some n) :
    parseRequiredNumberField (JsValue.num (JsNum.int (n : ℤ))) = some n := by
  cases j <;> simp only [parseRequiredNumberField] at h <;> try exact Option.noConfusion h
  case num jn =>
    cases jn <;> simp only [parseRequiredNumberField] at h <;> try exact Option.noConfusion h
    case int m =>
      by_cases hc : 0 ≤ m ∧ m ≤ maxSafeInteger
      · rw [if_pos hc] at h
        injection h with h2
        subst h2
        have hm : ((m.toNat : ℤ)) = m := Int.toNat_of_nonneg hc.1
        simp only [parseRequiredNumberField, hm]
        rw [if_pos hc]
      · rw [if_neg hc] at h
        exact Option.noConfusion h

theorem parseOptionalNumberField_roundtrip (j : JsValue) (onv : Option ℕ)
    (h : parseOptionalNumberField j = some onv) :
    parseOptionalNumberField (encodeOptNat onv) = some onv := by
  cases j <;> simp only [parseOptionalNumberField] at h <;> try exact Option.noConfusion h
  case undefv =>
    injection h with h2
    subst h2
    rfl
  case num jn =>
    cases jn <;> simp only [parseOptionalNumberField] at h <;> try exact Option.noConfusion h
    case int m =>
      by_cases hc : 0 ≤ m ∧ m ≤ maxSafeInteger
      · rw [if_pos hc] at h
        injection h with h2
        subst h2
        have hm : ((m.toNat : ℤ)) = m := Int.toNat_of_nonneg hc.1
        simp only [encodeOptNat, parseOptionalNumberField, hm]
        rw [if_pos hc]
      · rw [if_neg hc] at h
        exact Option.noConfusion h

theorem parsePrereleaseField_roundtrip (j : JsValue) (ob : Option String)
    (h : parsePrereleaseField j = some ob) :
    parsePrereleaseField (encodeOptStr ob) = some ob := by
  cases j <;> simp only [parsePrereleaseField] at h <;> try exact Option.noConfusion h
  case undefv =>
    injection h with h2
    subst h2
    rfl
  case str s =>
    by_cases hc : (splitDot s.data).all prereleasePieceOk = true
    · rw [if_pos hc] at h
      injection h with h2
      subst h2
      simp only [encodeOptStr, parsePrereleaseField]
      rw [if_pos hc]
    · rw [if_neg hc] at h
      exact Option.noConfusion h

theorem parseBuildField_roundtrip (j : JsValue) (ob : Option String)
    (h : parseBuildField j = some ob) :
    parseBuildField (encodeOptStr ob) = some ob := by
  cases j <;> simp only [parseBuildField] at h <;> try exact Option.noConfusion h
  case undefv =>
    injection h with h2
    subst h2
    rfl
  case str s =>
    by_cases hc : (splitDot s.data).all buildPieceOk = true
    · rw [if_pos hc] at h
      injection h with h2
      subst h2
      simp only [encodeOptStr, parseBuildField]
      rw [if_pos hc]
    · rw [if_neg hc] at h
      exact Option.noConfusion h

theorem parseStrRule_roundtrip (j : JsValue) (r : Rule) (h : parseStrRule j = some r) :
    parseStrRule (encodeRule r) = some r := by
  cases j <;> simp only [parseStrRule] at h <;> try exact Option.noConfusion h
  case str s =>
    injection h with h2
    subst h2
    rfl
  case regexp p =>
    injection h with h2
    subst h2
    rfl

theorem parseNumRule_roundtrip (j : JsValue) (r : Rule) (h : parseNumRule j = some r) :
    parseNumRule (encodeRule r) = some r := by
  cases j <;> simp only [parseNumRule] at h <;> try exact Option.noConfusion h
  case num jn =>
    cases jn <;> simp only [parseNumRule] at h <;> try exact Option.noConfusion h
    case int m =>
      injection h with h2
      subst h2
      rfl
    case nonint =>
      injection h with h2
      subst h2
      rfl
  case regexp p =>
    injection h with h2
    subst h2
    rfl

theorem parseRuleList_roundtrip (f : JsValue → Option Rule)
    (hf : ∀ j r, f j = some r → f (encodeRule r) = some r)
    (xs : List JsValue) (rs : List Rule) (h : parseRuleList f xs = some rs) :
    parseRuleList f (rs.map encodeRule) = some rs := by
  induction xs generalizing rs with
  | nil =>
      simp only [parseRuleList] at h
      injection h with h2
      subst h2
      rfl
  | cons x xt ih =>
      simp only [parseRuleList, Option.bind_eq_bind] at h
      cases hx : f x with
      | none => rw [hx] at h; exact Option.noConfusion h
      | some r =>
          rw [hx] at h
          simp only [Option.some_bind] at h
          cases ht : parseRuleList f xt with
          | none => rw [ht] at h; exact Option.noConfusion h
          | some rt =>
              rw [ht] at h
              simp only [Option.some_bind] at h
              injection h with h2
              subst h2
              simp only [List.map_cons, parseRuleList, Option.bind_eq_bind,
                hf x r hx, Option.some_bind, ih rt ht]

theorem parseStrSetting_roundtrip (j : JsValue) (s : Setting)
    (h : parseStrSetting j = some s) :
    parseStrSetting (encodeSetting s) = some s := by
  cases j <;> simp only [parseStrSetting] at h <;> try exact Option.noConfusion h
  case undefv =>
    injection h with h2
    subst h2
    rfl
  case str t =>
    by_cases h1 : t = "required"
    · rw [if_pos h1] at h
      injection h with h2
      subst h2
      rfl
    · rw [if_neg h1] at h
      by_cases h2 : t = "optional"
      · rw [if_pos h2] at h
        injection h with h3
        subst h3
        rfl
      · rw [if_neg h2] at h
        by_cases h3 : t = "forbidden"
        · rw [if_pos h3] at h
          injection h with h4
          subst h4
          rfl
        · rw [if_neg h3] at h
          exact Option.noConfusion h
  case arr xs =>
    cases hx : parseRuleList parseStrRule xs with
    | none => rw [hx] at h; exact Option.noConfusion h
    | some rs =>
        rw [hx] at h
        simp only [Option.map_some'] at h
        injection h with h2
        subst h2
        simp only [encodeSetting, parseStrSetting]
        rw [parseRuleList_roundtrip parseStrRule parseStrRule_roundtrip xs rs hx]
        rfl

theorem parseNumSetting_roundtrip (j : JsValue) (s : Setting)
    (h : parseNumSetting j = some s) :
    parseNumSetting (encodeSetting s) = some s := by
  cases j <;> simp only [parseNumSetting] at h <;> try exact Option.noConfusion h
  case undefv =>
    injection h with h2
    subst h2
    rfl
  case str t =>
    by_cases h1 : t = "required"
    · rw [if_pos h1] at h
      injection h with h2
      subst h2
      rfl
    · rw [if_neg h1] at h
      by_cases h2 : t = "optional"
      · rw [if_pos h2] at h
        injection h with h3
        subst h3
        rfl
      · rw [if_neg h2] at h
        by_cases h3 : t = "forbidden"
        · rw [if_pos h3] at h
          injection h with h4
          subst h4
          rfl
        · rw [if_neg h3] at h
          exact Option.noConfusion h
  case arr xs =>
    cases hx : parseRuleList parseNumRule xs with
    | none => rw [hx] at h; exact Option.noConfusion h
    | some rs =>
        rw [hx] at h
        simp only [Option.map_some'] at h
        injection h with h2
        subst h2
        simp only [encodeSetting, parseNumSetting]
        rw [parseRuleList_roundtrip parseNumRule parseNumRule_roundtrip xs rs hx]
        rfl

theorem parseSettingsObject_roundtrip (j : JsValue) (cs : SemanticVersionComplianceSettings)
    (h : parseSettingsObject j = some cs) :
    parseSettingsObject (encodeSettings cs) = some cs := by
  cases j <;> simp only [parseSettingsObject, Option.bind_eq_bind] at h <;>
    try exact Option.noConfusion h
  case regexp p =>
    injection h with h2
    subst h2
    rfl
  case obj fs =>
    cases hB : parseStrSetting (jsGet fs "Branch") with
    | none => rw [hB] at h; exact Option.noConfusion h
    | some b =>
    rw [hB] at h
    simp only [Option.some_bind] at h
    cases hL : parseStrSetting (jsGet fs "Label") with
    | none => rw [hL] at h; exact Option.noConfusion h
    | some l =>
    rw [hL] at h
    simp only [Option.some_bind] at h
    cases hH : parseNumSetting (jsGet fs "Hotfix") with
    | none => rw [hH] at h; exact Option.noConfusion h
    | some hf =>
    rw [hH] at h
    simp only [Option.some_bind] at h
    cases hP : parseStrSetting (jsGet fs "Prerelease") with
    | none => rw [hP] at h; exact Option.noConfusion h
    | some p =>
    rw [hP] at h
    simp only [Option.some_bind] at h
    cases hBu : parseStrSetting (jsGet fs "Build") with
    | none => rw [hBu] at h; exact Option.noConfusion h
    | some bu =>
    rw [hBu] at h
    simp only [Option.some_bind] at h
    injection h with h2
    subst h2
    have e1 : jsGet [("Branch", encodeSetting b), ("Label", encodeSetting l),
        ("Hotfix", encodeSetting hf), ("Prerelease", encodeSetting p),
        ("Build", encodeSetting bu)] "Branch" = encodeSetting b := rfl
    have e2 : jsGet [("Branch", encodeSetting b), ("Label", encodeSetting l),
        ("Hotfix", encodeSetting hf), ("Prerelease", encodeSetting p),
        ("Build", encodeSetting bu)] "Label" = encodeSetting l := rfl
    have e3 : jsGet [("Branch", encodeSetting b), ("Label", encodeSetting l),
        ("Hotfix", encodeSetting hf), ("Prerelease", encodeSetting p),
        ("Build", encodeSetting bu)] "Hotfix" = encodeSetting hf := rfl
    have e4 : jsGet [("Branch", encodeSetting b), ("Label", encodeSetting l),
        ("Hotfix", encodeSetting hf), ("Prerelease", encodeSetting p),
        ("Build", encodeSetting bu)] "Prerelease" = encodeSetting p := rfl
    have e5 : jsGet [("Branch", encodeSetting b), ("Label", encodeSetting l),
        ("Hotfix", encodeSetting hf), ("Prerelease", encodeSetting p),
        ("Build", encodeSetting bu)] "Build" = encodeSetting bu := rfl
    simp only [encodeSettings, parseSettingsObject, Option.bind_eq_bind,
      e1, e2, e3, e4, e5,
      parseStrSetting_roundtrip _ _ hB, parseStrSetting_roundtrip _ _ hL,
      parseNumSetting_roundtrip _ _ hH, parseStrSetting_roundtrip _ _ hP,
      parseStrSetting_roundtrip _ _ hBu, Option.some_bind]

theorem parseSettingsField_objLike (v : JsValue)
    (oc : Option SemanticVersionComplianceSettings)
    (h : (parseSettingsObject v).map some = some oc) :
    parseSettingsField (encodeOptSettings oc) = some oc := by
  cases hx : parseSettingsObject v with
  | none => rw [hx] at h; exact Option.noConfusion h
  | some cs =>
      rw [hx] at h
      simp only [Option.map_some'] at h
      injection h with h2
      subst h2
      have hr := parseSettingsObject_roundtrip v cs hx
      cases cs with
      | mk b l hf p bu =>
          simp only [encodeOptSettings, encodeSettings]
          simp only [encodeSettings] at hr
          simp only [parseSettingsField, hr, Option.map_some']

theorem parseSettingsField_roundtrip (j : JsValue)
    (oc : Option SemanticVersionComplianceSettings)
    (h : parseSettingsField j = some oc) :
    parseSettingsField (encodeOptSettings oc) = some oc := by
  cases j with
  | undefv =>
      simp only [parseSettingsField] at h
      injection h with h2
      subst h2
      rfl
  | nullv => exact parseSettingsField_objLike JsValue.nullv oc h
  | bool b => exact parseSettingsField_objLike (JsValue.bool b) oc h
  | num n => exact parseSettingsField_objLike (JsValue.num n) oc h
  | str s => exact parseSettingsField_objLike (JsValue.str s) oc h
  | obj fs => exact parseSettingsField_objLike (JsValue.obj fs) oc h
  | arr xs => exact parseSettingsField_objLike (JsValue.arr xs) oc h
  | regexp p => exact parseSettingsField_objLike (JsValue.regexp p) oc h

theorem semanticVersionSchemaParse_roundtrip (v : JsValue) (st : SemanticVersionStruct)
    (h : semanticVersionSchemaParse v = some st) :
    semanticVersionSchemaParse (structToJs st) = some st := by
  cases v <;> simp only [semanticVersionSchemaParse, Option.bind_eq_bind] at h <;>
    try exact Option.noConfusion h
  case obj fs =>
    cases h1 : parseBranchField (jsGet fs "branch") with
    | none => rw [h1] at h; exact Option.noConfusion h
    | some branch =>
    rw [h1] at h
    simp only [Option.some_bind] at h
    cases h2 : parseLabelField (jsGet fs "label") with
    | none => rw [h2] at h; exact Option.noConfusion h
    | some label =>
    rw [h2] at h
    simp only [Option.some_bind] at h
    cases h3 : parseRequiredNumberField (jsGet fs "major") with
    | none => rw [h3] at h; exact Option.noConfusion h
    | some major =>
    rw [h3] at h
    simp only [Option.some_bind] at h
    cases h4 : parseRequiredNumberField (jsGet fs "minor") with
    | none => rw [h4] at h; exact Option.noConfusion h
    | some minor =>
    rw [h4] at h
    simp only [Option.some_bind] at h
    cases h5 : parseRequiredNumberField (jsGet fs "patch") with
    | none => rw [h5] at h; exact Option.noConfusion h
    | some patch =>
    rw [h5] at h
    simp only [Option.some_bind] at h
    cases h6 : parseOptionalNumberField (jsGet fs "hotfix") with
    | none => rw [h6] at h; exact Option.noConfusion h
    | some hotfix =>
    rw [h6] at h
    simp only [Option.some_bind] at h
    cases h7 : parsePrereleaseField (jsGet fs "prerelease") with
    | none => rw [h7] at h; exact Option.noConfusion h
    | some prerelease =>
    rw [h7] at h
    simp only [Option.some_bind] at h
    cases h8 : parseBuildField (jsGet fs "build") with
    | none => rw [h8] at h; exact Option.noConfusion h
    | some build =>
    rw [h8] at h
    simp only [Option.some_bind] at h
    cases h9 : parseSettingsField (jsGet fs "complianceSettings") with
    | none => rw [h9] at h; exact Option.noConfusion h
    | some cset =>
    rw [h9] at h
    simp only [Option.some_bind] at h
    injection h with h10
    subst h10
    simp only [structToJs, semanticVersionSchemaParse, Option.bind_eq_bind]
    have e1 : jsGet [("branch", encodeOptStr branch), ("label", encodeOptStr label),
        ("major", .num (.int (major : ℤ))), ("minor", .num (.int (minor : ℤ))),
        ("patch", .num (.int (patch : ℤ))), ("hotfix", encodeOptNat hotfix),
        ("prerelease", encodeOptStr prerelease), ("build", encodeOptStr build),
        ("complianceSettings", encodeOptSettings cset)] "branch" = encodeOptStr branch := rfl
    have e2 : jsGet [("branch", encodeOptStr branch), ("label", encodeOptStr label),
        ("major", .num (.int (major : ℤ))), ("minor", .num (.int (minor : ℤ))),
        ("patch", .num (.int (patch : ℤ))), ("hotfix", encodeOptNat hotfix),
        ("prerelease", encodeOptStr prerelease), ("build", encodeOptStr build),
        ("complianceSettings", encodeOptSettings cset)] "label" = encodeOptStr label := rfl
    have e3 : jsGet [("branch", encodeOptStr branch), ("label", encodeOptStr label),
        ("major", .num (.int (major : ℤ))), ("minor", .num (.int (minor : ℤ))),
        ("patch", .num (.int (patch : ℤ))), ("hotfix", encodeOptNat hotfix),
        ("prerelease", encodeOptStr prerelease), ("build", encodeOptStr build),
        ("complianceSettings", encodeOptSettings cset)] "major"
          = JsValue.num (.int (major : ℤ)) := rfl
    have e4 : jsGet [("branch", encodeOptStr branch), ("label", encodeOptStr label),
        ("major", .num (.int (major : ℤ))), ("minor", .num (.int (minor : ℤ))),
        ("patch", .num (.int (patch : ℤ))), ("hotfix", encodeOptNat hotfix),
        ("prerelease", encodeOptStr prerelease), ("build", encodeOptStr build),
        ("complianceSettings", encodeOptSettings cset)] "minor"
          = JsValue.num (.int (minor : ℤ)) := rfl
    have e5 : jsGet [("branch", encodeOptStr branch), ("label", encodeOptStr label),
        ("major", .num (.int (major : ℤ))), ("minor", .num (.int (minor : ℤ))),
        ("patch", .num (.int (patch : ℤ))), ("hotfix", encodeOptNat hotfix),
        ("prerelease", encodeOptStr prerelease), ("build", encodeOptStr build),
        ("complianceSettings", encodeOptSettings cset)] "patch"
          = JsValue.num (.int (patch : ℤ)) := rfl
    have e6 : jsGet [("branch", encodeOptStr branch), ("label", encodeOptStr label),
        ("major", .num (.int (major : ℤ))), ("minor", .num (.int (minor : ℤ))),
        ("patch", .num (.int (patch : ℤ))), ("hotfix", encodeOptNat hotfix),
        ("prerelease", encodeOptStr prerelease), ("build", encodeOptStr build),
        ("complianceSettings", encodeOptSettings cset)] "hotfix" = encodeOptNat hotfix := rfl
    have e7 : jsGet [("branch", encodeOptStr branch), ("label", encodeOptStr label),
        ("major", .num (.int (major : ℤ))), ("minor", .num (.int (minor : ℤ))),
        ("patch", .num (.int (patch : ℤ))), ("hotfix", encodeOptNat hotfix),
        ("prerelease", encodeOptStr prerelease), ("build", encodeOptStr build),
        ("complianceSettings", encodeOptSettings cset)] "prerelease"
          = encodeOptStr prerelease := rfl
    have e8 : jsGet [("branch", encodeOptStr branch), ("label", encodeOptStr label),
        ("major", .num (.int (major : ℤ))), ("minor", .num (.int (minor : ℤ))),
        ("patch", .num (.int (patch : ℤ))), ("hotfix", encodeOptNat hotfix),
        ("prerelease", encodeOptStr prerelease), ("build", encodeOptStr build),
        ("complianceSettings", encodeOptSettings cset)] "build" = encodeOptStr build := rfl
    have e9 : jsGet [("branch", encodeOptStr branch), ("label", encodeOptStr label),
        ("major", .num (.int (major : ℤ))), ("minor", .num (.int (minor : ℤ))),
        ("patch", .num (.int (patch : ℤ))), ("hotfix", encodeOptNat hotfix),
        ("prerelease", encodeOptStr prerelease), ("build", encodeOptStr build),
        ("complianceSettings", encodeOptSettings cset)] "complianceSettings"
          = encodeOptSettings cset := rfl
    rw [e1, e2, e3, e4, e5, e6, e7, e8, e9,
      parseBranchField_roundtrip _ _ h1, parseLabelField_roundtrip _ _ h2,
      parseRequiredNumberField_roundtrip _ _ h3, parseRequiredNumberField_roundtrip _ _ h4,
      parseRequiredNumberField_roundtrip _ _ h5, parseOptionalNumberField_roundtrip _ _ h6,
      parsePrereleaseField_roundtrip _ _ h7, parseBuildField_roundtrip _ _ h8,
      parseSettingsField_roundtrip _ _ h9]
    simp only [Option.some_bind]


/-- C10: tryParse is total and never throws. The first conjunct says every
input produces a normal return (never an exception); a string input always
yields undefined (in particular one that does not match the grammar); an
input that is neither a string nor an object yields undefined; and an object
input that fails structural validation yields undefined. The object path
calls the constructor on the already-parsed struct, which re-validates
successfully by the round-trip lemmas, so no exception escapes. -/
theorem c10_tryParse_total_and_never_throws
    (g : SemanticVersionComplianceSettings) (input : JsValue) :
    (∃ r, tryParse g input = Except.ok r) ∧
    (∀ s, input = JsValue.str s → tryParse g input = Except.ok none) ∧
    (jsTypeof input ≠ "string" → jsTypeof input ≠ "object" →
      tryParse g input = Except.ok none) ∧
    (∀ fs, input = JsValue.obj fs → semanticVersionSchemaParse (JsValue.obj fs) = none →
      tryParse g input = Except.ok none) := by
  cases input with
  | undefv =>
      exact ⟨⟨none, rfl⟩, fun s h => JsValue.noConfusion h, fun _ _ => rfl,
        fun fs h hn => JsValue.noConfusion h⟩
  | nullv =>
      exact ⟨⟨none, rfl⟩, fun s h => JsValue.noConfusion h, fun _ h => absurd rfl h,
        fun fs h hn => JsValue.noConfusion h⟩
  | bool b =>
      exact ⟨⟨none, rfl⟩, fun s h => JsValue.noConfusion h, fun _ _ => rfl,
        fun fs h hn => JsValue.noConfusion h⟩
  | num n =>
      exact ⟨⟨none, rfl⟩, fun s h => JsValue.noConfusion h, fun _ _ => rfl,
        fun fs h hn => JsValue.noConfusion h⟩
  | str s =>
      exact ⟨⟨none, rfl⟩, fun s2 h => rfl, fun h _ => absurd rfl h,
        fun fs h hn => JsValue.noConfusion h⟩
  | arr xs =>
      exact ⟨⟨none, rfl⟩, fun s h => JsValue.noConfusion h, fun _ h => absurd rfl h,
        fun fs h hn => JsValue.noConfusion h⟩
  | regexp p =>
      exact ⟨⟨none, rfl⟩, fun s h => JsValue.noConfusion h, fun _ h => absurd rfl h,
        fun fs h hn => JsValue.noConfusion h⟩
  | obj fs =>
      cases hx : semanticVersionSchemaParse (JsValue.obj fs) with
      | none =>
          have ht : tryParse g (JsValue.obj fs) = Except.ok none := by
            simp only [tryParse, hx]
          exact ⟨⟨none, ht⟩, fun s h => JsValue.noConfusion h, fun _ h => absurd rfl h,
            fun fs2 h hn => ht⟩
      | some st =>
          obtain ⟨l, hl⟩ : ∃ l, structToJs st = JsValue.obj l := ⟨_, rfl⟩
          have hparse := semanticVersionSchemaParse_roundtrip _ _ hx
          rw [hl] at hparse
          have hc : constructVersion g (structToJs st) = Except.ok (mkFromStruct g st) := by
            rw [hl]
            simp only [constructVersion, hparse]
          have ht : tryParse g (JsValue.obj fs) = Except.ok (some (mkFromStruct g st)) := by
            simp only [tryParse, hx, hc]
            try rfl
          refine ⟨⟨some (mkFromStruct g st), ht⟩, fun s h => JsValue.noConfusion h,
            fun _ h => absurd rfl h, ?_⟩
          intro fs2 h hn
          rw [h] at hx
          rw [hn] at hx
          exact Option.noConfusion hx

/-- Witness for C10: a number input, a grammar-mismatching string input
(spec scenario "1.2"), and an object failing structural validation all give
a normal undefined return. -/
theorem c10_tryParse_total_and_never_throws_witness :
    tryParse allOptionalSettings (JsValue.num (JsNum.int 5)) = Except.ok none ∧
    tryParse allOptionalSettings (JsValue.str "1.2") = Except.ok none ∧
    tryParse allOptionalSettings (JsValue.obj [("major", JsValue.str "x")])
      = Except.ok none :=
  ⟨(c10_tryParse_total_and_never_throws allOptionalSettings
      (JsValue.num (JsNum.int 5))).2.2.1 (by decide) (by decide),
   (c10_tryParse_total_and_never_throws allOptionalSettings
      (JsValue.str "1.2")).2.1 "1.2" rfl,
   (c10_tryParse_total_and_never_throws allOptionalSettings
      (JsValue.obj [("major", JsValue.str "x")])).2.2.2
      [("major", JsValue.str "x")] rfl rfl⟩

/-- C9: the policy settings of a Version are resolved at construction time:
a Version constructed from a struct that explicitly supplies
complianceSettings carries exactly those settings, whatever the process-wide
default was at construction time, and a later call to
setDefaultComplianceSettings (modelled as producing the new default state)
yields the very same value when re-run, so already-constructed values are
unaffected by the change of default. -/
theorem c9_settings_captured_at_construction
    (g1 g2 : SemanticVersionComplianceSettings) (obj : JsValue)
    (st : SemanticVersionStruct) (s : SemanticVersionComplianceSettings)
    (v1 v2 : SemanticVersion)
    (hparse : semanticVersionSchemaParse obj = some st)
    (hs : st.complianceSettings = some s)
    (h1 : constructVersion g1 obj = Except.ok v1)
    (h2 : constructVersion (setDefaultComplianceSettings g2) obj = Except.ok v2) :
    v1.complianceSettings = s ∧ v2.complianceSettings = s ∧ v1 = v2 := by
  cases obj <;> try exact Option.noConfusion hparse
  case obj fs =>
    have hc1 : constructVersion g1 (JsValue.obj fs) = Except.ok (mkFromStruct g1 st) := by
      simp only [constructVersion, hparse]
    have hc2 : constructVersion (setDefaultComplianceSettings g2) (JsValue.obj fs)
        = Except.ok (mkFromStruct (setDefaultComplianceSettings g2) st) := by
      simp only [constructVersion, hparse]
    rw [hc1] at h1
    rw [hc2] at h2
    injection h1 with h1e
    injection h2 with h2e
    subst h1e
    subst h2e
    refine ⟨?_, ?_, ?_⟩ <;> simp [mkFromStruct, hs, setDefaultComplianceSettings]

/-- Settings with Branch required, everything else optional. -/
def requiredBranchSettings : SemanticVersionComplianceSettings :=
  ⟨.required, .optional, .optional, .optional, .optional⟩

/-- Settings with every governed field forbidden (a second, different
default used by the C9 witness). -/
def allForbiddenSettings : SemanticVersionComplianceSettings :=
  ⟨.forbidden, .forbidden, .forbidden, .forbidden, .forbidden⟩

/-- A construction input 1.0.0 with explicit complianceSettings. -/
def objWithSettings : JsValue :=
  .obj [("major", .num (.int 1)), ("minor", .num (.int 0)), ("patch", .num (.int 0)),
        ("complianceSettings", .obj [("Branch", .str "required")])]

/-- The struct objWithSettings parses to. -/
def structWithSettings : SemanticVersionStruct :=
  ⟨none, none, 1, 0, 0, none, none, none, some requiredBranchSettings⟩

/-- The Version objWithSettings constructs to, under any default. -/
def vWithSettings : SemanticVersion :=
  ⟨none, none, 1, 0, 0, none, none, none, requiredBranchSettings⟩

/-- Witness for C9 at a concrete construction input, with two different
process-wide defaults. -/
theorem c9_settings_captured_witness :
    vWithSettings.complianceSettings = requiredBranchSettings ∧
    vWithSettings.complianceSettings = requiredBranchSettings ∧
    vWithSettings = vWithSettings :=
  c9_settings_captured_at_construction allOptionalSettings allForbiddenSettings
    objWithSettings structWithSettings requiredBranchSettings
    vWithSettings vWithSettings rfl rfl rfl rfl

/-- Two strings with the same character data are equal. -/
theorem string_data_inj (s t : String) (h : s.data = t.data) : s = t := by
  cases s
  cases t
  exact congrArg String.mk h

theorem charListLt_irrefl (a : List Char) : charListLt a a = false := by
  induction a with
  | nil => rfl
  | cons c cs ih => simp [charListLt, lt_irrefl, ih]

theorem charListLt_asymm (a b : List Char) (h : charListLt a b = true) :
    charListLt b a = false := by
  induction a generalizing b with
  | nil =>
      cases b with
      | nil => exact absurd h (by simp [charListLt])
      | cons d ds => rfl
  | cons c cs ih =>
      cases b with
      | nil => exact absurd h (by simp [charListLt])
      | cons d ds =>
          by_cases h1 : c < d
          · have h2 : ¬ d < c := lt_asymm h1
            simp [charListLt, h1, h2]
          · by_cases h2 : d < c
            · simp [charListLt, h1, h2] at h
            · have he : c = d := le_antisymm (le_of_not_lt h2) (le_of_not_lt h1)
              subst he
              simp [charListLt, lt_irrefl] at h ⊢
              exact ih ds h

theorem charListLt_trans (a b c : List Char) (h1 : charListLt a b = true)
    (h2 : charListLt b c = true) : charListLt a c = true := by
  induction a generalizing b c with
  | nil =>
      cases b with
      | nil => exact absurd h1 (by simp [charListLt])
      | cons d ds =>
          cases c with
          | nil => exact absurd h2 (by simp [charListLt])
          | cons e es => rfl
  | cons x xs ih =>
      cases b with
      | nil => exact absurd h1 (by simp [charListLt])
      | cons y ys =>
          cases c with
          | nil => exact absurd h2 (by simp [charListLt])
          | cons z zs =>
              by_cases hxy : x < y
              · by_cases hyz : y < z
                · simp [charListLt, lt_trans hxy hyz]
                · by_cases hzy : z < y
                  · simp [charListLt, hyz, hzy] at h2
                  · have he : y = z := le_antisymm (le_of_not_lt hzy) (le_of_not_lt hyz)
                    subst he
                    simp [charListLt, hxy]
              · by_cases hyx : y < x
                · simp [charListLt, hxy, hyx] at h1
                · have he : x = y := le_antisymm (le_of_not_lt hyx) (le_of_not_lt hxy)
                  subst he
                  simp [charListLt, lt_irrefl] at h1
                  by_cases hyz : x < z
                  · simp [charListLt, hyz]
                  · by_cases hzy : z < x
                    · simp [charListLt, hyz, hzy] at h2
                    · have he2 : x = z := le_antisymm (le_of_not_lt hzy) (le_of_not_lt hyz)
                      subst he2
                      simp [charListLt, lt_irrefl] at h2 ⊢
                      exact ih ys zs h1 h2

theorem charListLt_eq_of_not_lt (a b : List Char) (h1 : charListLt a b = false)
    (h2 : charListLt b a = false) : a = b := by
  induction a generalizing b with
  | nil =>
      cases b with
      | nil => rfl
      | cons d ds => exact absurd h1 (by simp [charListLt])
  | cons c cs ih =>
      cases b with
      | nil => exact absurd h2 (by simp [charListLt])
      | cons d ds =>
          by_cases hcd : c < d
          · simp [charListLt, hcd] at h1
          · by_cases hdc : d < c
            · simp [charListLt, hdc, hcd] at h2
            · have he : c = d := le_antisymm (le_of_not_lt hdc) (le_of_not_lt hcd)
              subst he
              simp [charListLt, lt_irrefl] at h1 h2
              rw [ih ds h1 h2]

/-- First-difference composition of two comparison results, the way
comparePrecedence chains its field comparisons. -/
def cmpThen (d rest : ℤ) : ℤ := if d ≠ 0 then d else rest

/-- Integer-valued comparator on character lists (the localeCompare model). -/
def listCharCmp (x y : List Char) : ℤ :=
  if charListLt x y then -1 else if charListLt y x then 1 else 0

/-- Integer-valued comparator on naturals by subtraction, as the code
compares numeric fields. -/
def natCmp (m n : ℕ) : ℤ := (m : ℤ) - n

/-- The precedence key of a Version, from the spec: branch with absent as
empty string, then major, minor, patch, then hotfix with absent as 0. -/
def cmpKey (v : SemanticVersion) : List Char × ℕ × ℕ × ℕ × ℕ :=
  ((v.branch.getD "").data, v.major, v.minor, v.patch, v.hotfix.getD 0)

/-- Modelled from the spec (section 4.5): the lexicographic comparator over
the precedence key, first difference decides. The refinement theorem for C5
shows comparePrecedence computes this function of the two keys. -/
def tupleCmp (x y : List Char × ℕ × ℕ × ℕ × ℕ) : ℤ :=
  cmpThen (listCharCmp x.1 y.1)
    (cmpThen (natCmp x.2.1 y.2.1)
      (cmpThen (natCmp x.2.2.1 y.2.2.1)
        (cmpThen (natCmp x.2.2.2.1 y.2.2.2.1) (natCmp x.2.2.2.2 y.2.2.2.2))))

/-- The laws making an integer-valued comparator a total-order comparator:
antisymmetry, zero exactly on equal arguments, and transitivity of the
strict negative part. -/
structure LawfulCmp {α : Type} (c : α → α → ℤ) : Prop where
  antisym : ∀ x y, c x y = -(c y x)
  eq_zero : ∀ x y, c x y = 0 ↔ x = y
  transLt : ∀ x y z, c x y < 0 → c y z < 0 → c x z < 0

theorem lawful_natCmp : LawfulCmp natCmp := by
  constructor
  · intro x y
    simp only [natCmp]
    omega
  · intro x y
    simp only [natCmp]
    omega
  · intro x y z h1 h2
    simp only [natCmp] at h1 h2 ⊢
    omega

theorem lawful_listCharCmp : LawfulCmp listCharCmp := by
  constructor
  · intro x y
    by_cases h1 : charListLt x y = true
    · simp [listCharCmp, h1, charListLt_asymm x y h1]
    · by_cases h2 : charListLt y x = true
      · simp [listCharCmp, h1, h2]
      · simp [listCharCmp, h1, h2]
  · intro x y
    constructor
    · intro h
      by_cases h1 : charListLt x y = true
      · simp [listCharCmp, h1] at h
      · by_cases h2 : charListLt y x = true
        · simp [listCharCmp, h1, h2] at h
        · exact charListLt_eq_of_not_lt x y (Bool.not_eq_true _ ▸ h1)
            (Bool.not_eq_true _ ▸ h2)
    · intro h
      subst h
      simp [listCharCmp, charListLt_irrefl]
  · intro x y z h1 h2
    have hx : charListLt x y = true := by
      by_cases ha : charListLt x y = true
      · exact ha
      · by_cases hb : charListLt y x = true
        · simp [listCharCmp, ha, hb] at h1
        · simp [listCharCmp, ha, hb] at h1
    have hy : charListLt y z = true := by
      by_cases ha : charListLt y z = true
      · exact ha
      · by_cases hb : charListLt z y = true
        · simp [listCharCmp, ha, hb] at h2
        · simp [listCharCmp, ha, hb] at h2
    simp [listCharCmp, charListLt_trans x y z hx hy]

theorem lawfulCmp_prod {α β : Type} {c : α → α → ℤ} {d : β → β → ℤ}
    (hc : LawfulCmp c) (hd : LawfulCmp d) :
    LawfulCmp (fun p q : α × β => cmpThen (c p.1 q.1) (d p.2 q.2)) := by
  constructor
  · intro x y
    by_cases h : c x.1 y.1 = 0
    · have h2 : c y.1 x.1 = 0 := by
        have := hc.antisym x.1 y.1
        omega
      simp only [cmpThen, h, h2]
      simp [hd.antisym x.2 y.2]
    · have h2 : c y.1 x.1 ≠ 0 := by
        have := hc.antisym x.1 y.1
        omega
      simp only [cmpThen, if_pos h, if_pos h2]
      exact hc.antisym _ _
  · intro x y
    constructor
    · intro h
      by_cases h1 : c x.1 y.1 = 0
      · simp only [cmpThen, h1, if_neg (by omega : ¬ (0 : ℤ) ≠ 0)] at h
        have e1 := (hc.eq_zero _ _).mp h1
        have e2 := (hd.eq_zero _ _).mp h
        exact Prod.ext e1 e2
      · simp only [cmpThen, if_pos h1] at h
        exact absurd h h1
    · intro h
      subst h
      simp [cmpThen, (hc.eq_zero x.1 x.1).mpr rfl, (hd.eq_zero x.2 x.2).mpr rfl]
  · intro x y z h1 h2
    by_cases hxy : c x.1 y.1 = 0
    · have exy := (hc.eq_zero _ _).mp hxy
      simp only [cmpThen, hxy, if_neg (by omega : ¬ (0 : ℤ) ≠ 0)] at h1
      by_cases hyz : c y.1 z.1 = 0
      · have eyz := (hc.eq_zero _ _).mp hyz
        simp only [cmpThen, hyz, if_neg (by omega : ¬ (0 : ℤ) ≠ 0)] at h2
        have hxz : c x.1 z.1 = 0 := (hc.eq_zero _ _).mpr (exy.trans eyz)
        simp only [cmpThen, hxz, if_neg (by omega : ¬ (0 : ℤ) ≠ 0)]
        exact hd.transLt _ _ _ h1 h2
      · simp only [cmpThen, if_pos hyz] at h2
        have hxz : c x.1 z.1 < 0 := by rw [exy]; exact h2
        simp only [cmpThen, if_pos (by omega : c x.1 z.1 ≠ 0)]
        exact hxz
    · simp only [cmpThen, if_pos hxy] at h1
      by_cases hyz : c y.1 z.1 = 0
      · have eyz := (hc.eq_zero _ _).mp hyz
        have hxz : c x.1 z.1 < 0 := by rw [← eyz]; exact h1
        simp only [cmpThen, if_pos (by omega : c x.1 z.1 ≠ 0)]
        exact hxz
      · simp only [cmpThen, if_pos hyz] at h2
        have hxz : c x.1 z.1 < 0 := hc.transLt _ _ _ h1 h2
        simp only [cmpThen, if_pos (by omega : c x.1 z.1 ≠ 0)]
        exact hxz

theorem lawful_tupleCmp : LawfulCmp tupleCmp :=
  lawfulCmp_prod lawful_listCharCmp
    (lawfulCmp_prod lawful_natCmp
      (lawfulCmp_prod lawful_natCmp
        (lawfulCmp_prod lawful_natCmp lawful_natCmp)))

theorem listCharCmp_self (x : List Char) : listCharCmp x x = 0 := by
  simp [listCharCmp, charListLt_irrefl]

theorem listCharCmp_ne_zero (x y : List Char) (h : x ≠ y) : listCharCmp x y ≠ 0 :=
  fun h0 => h ((lawful_listCharCmp.eq_zero x y).mp h0)

theorem optBranch_eq_iff (x y : Option String) (hx : x ≠ some "") (hy : y ≠ some "") :
    x = y ↔ (x.getD "").data = (y.getD "").data := by
  constructor
  · intro h
    rw [h]
  · intro h
    have h2 : x.getD "" = y.getD "" := string_data_inj _ _ h
    cases x with
    | none =>
        cases y with
        | none => rfl
        | some t =>
            exfalso
            apply hy
            have h3 : ("" : String) = t := h2
            rw [← h3]
    | some s =>
        cases y with
        | none =>
            exfalso
            apply hx
            have h3 : s = ("" : String) := h2
            rw [h3]
        | some t =>
            have h3 : s = t := h2
            rw [h3]

theorem cmpThen_eq_rest (d rest : ℤ) (h : d = 0) : cmpThen d rest = rest := by
  simp [cmpThen, h]

theorem cmpThen_eq_head (d rest : ℤ) (h : d ≠ 0) : cmpThen d rest = d := by
  simp [cmpThen, h]

theorem comparePrecedence_eq_tupleCmp (a b : SemanticVersion)
    (ha : a.branch ≠ some "") (hb : b.branch ≠ some "") :
    SemanticVersion.comparePrecedence a b = tupleCmp (cmpKey a) (cmpKey b) := by
  have hbr := optBranch_eq_iff a.branch b.branch ha hb
  simp only [SemanticVersion.comparePrecedence, tupleCmp, cmpKey]
  by_cases h1 : a.branch = b.branch
  · have hd : (a.branch.getD "").data = (b.branch.getD "").data := hbr.mp h1
    rw [if_neg (not_not_intro h1)]
    rw [cmpThen_eq_rest _ _ (by rw [hd]; exact listCharCmp_self _)]
    by_cases h2 : a.major = b.major
    · rw [if_neg (not_not_intro h2)]
      rw [cmpThen_eq_rest _ _ (by simp only [natCmp, h2, sub_self])]
      by_cases h3 : a.minor = b.minor
      · rw [if_neg (not_not_intro h3)]
        rw [cmpThen_eq_rest _ _ (by simp only [natCmp, h3, sub_self])]
        by_cases h4 : a.patch = b.patch
        · rw [if_neg (not_not_intro h4)]
          rw [cmpThen_eq_rest _ _ (by simp only [natCmp, h4, sub_self])]
          by_cases h5 : a.hotfix = b.hotfix
          · rw [if_neg (not_not_intro h5)]
            simp only [natCmp, h5, sub_self]
          · rw [if_pos h5]
            simp only [natCmp]
        · rw [if_pos h4]
          rw [cmpThen_eq_head _ _ (by
            simp only [natCmp]
            intro h0
            exact h4 (by exact_mod_cast sub_eq_zero.mp h0))]
          simp only [natCmp]
      · rw [if_pos h3]
        rw [cmpThen_eq_head _ _ (by
          simp only [natCmp]
          intro h0
          exact h3 (by exact_mod_cast sub_eq_zero.mp h0))]
        simp only [natCmp]
    · rw [if_pos h2]
      rw [cmpThen_eq_head _ _ (by
        simp only [natCmp]
        intro h0
        exact h2 (by exact_mod_cast sub_eq_zero.mp h0))]
      simp only [natCmp]
  · have hd : (a.branch.getD "").data ≠ (b.branch.getD "").data :=
      fun h => h1 (hbr.mpr h)
    rw [if_pos h1]
    rw [cmpThen_eq_head _ _ (listCharCmp_ne_zero _ _ hd)]
    simp only [localeCompare, listCharCmp]

theorem localeCompare_antisym (s t : String) :
    localeCompare s t = -(localeCompare t s) := by
  by_cases h1 : charListLt s.data t.data = true
  · simp [localeCompare, h1, charListLt_asymm _ _ h1]
  · by_cases h2 : charListLt t.data s.data = true
    · simp [localeCompare, h1, h2]
    · simp [localeCompare, h1, h2]

theorem comparePrecedence_antisym (a b : SemanticVersion) :
    SemanticVersion.comparePrecedence a b = -(SemanticVersion.comparePrecedence b a) := by
  simp only [SemanticVersion.comparePrecedence]
  by_cases h1 : a.branch = b.branch
  · rw [if_neg (not_not_intro h1), if_neg (not_not_intro h1.symm)]
    by_cases h2 : a.major = b.major
    · rw [if_neg (not_not_intro h2), if_neg (not_not_intro h2.symm)]
      by_cases h3 : a.minor = b.minor
      · rw [if_neg (not_not_intro h3), if_neg (not_not_intro h3.symm)]
        by_cases h4 : a.patch = b.patch
        · rw [if_neg (not_not_intro h4), if_neg (not_not_intro h4.symm)]
          by_cases h5 : a.hotfix = b.hotfix
          · rw [if_neg (not_not_intro h5), if_neg (not_not_intro h5.symm)]
            simp
          · rw [if_pos h5, if_pos (fun h => h5 h.symm)]
            omega
        · rw [if_pos h4, if_pos (fun h => h4 h.symm)]
          omega
      · rw [if_pos h3, if_pos (fun h => h3 h.symm)]
        omega
    · rw [if_pos h2, if_pos (fun h => h2 h.symm)]
      omega
  · rw [if_pos h1, if_pos (fun h => h1 h.symm)]
    exact localeCompare_antisym _ _

/-- C5: comparePrecedence is a total-order comparator, lexicographic over
branch (string comparison, absent as empty string), then major, minor,
patch, then hotfix (absent as 0): compare of a value with itself is 0; the
comparator is antisymmetric for all Versions and transitive over Versions
whose branch satisfies the constructor invariant (BranchSchema rejects an
empty-string branch, so every constructed Version satisfies it); it is zero
exactly on equal precedence keys; two Versions equal on all five compared
fields compare as 0 whatever their prerelease and build; and it computes
exactly the spec's first-difference lexicographic comparator tupleCmp over
the keys. -/
theorem c5_comparePrecedence_total_order :
    (∀ a : SemanticVersion, SemanticVersion.compare a a = 0) ∧
    (∀ a b : SemanticVersion,
      SemanticVersion.comparePrecedence a b = -(SemanticVersion.comparePrecedence b a)) ∧
    (∀ a b c : SemanticVersion,
      a.branch ≠ some "" → b.branch ≠ some "" → c.branch ≠ some "" →
      SemanticVersion.comparePrecedence a b ≤ 0 →
      SemanticVersion.comparePrecedence b c ≤ 0 →
      SemanticVersion.comparePrecedence a c ≤ 0) ∧
    (∀ a b : SemanticVersion, a.branch ≠ some "" → b.branch ≠ some "" →
      (SemanticVersion.comparePrecedence a b = 0 ↔ cmpKey a = cmpKey b)) ∧
    (∀ a b : SemanticVersion, a.branch = b.branch → a.major = b.major →
      a.minor = b.minor → a.patch = b.patch → a.hotfix = b.hotfix →
      SemanticVersion.comparePrecedence a b = 0) ∧
    (∀ a b : SemanticVersion, a.branch ≠ some "" → b.branch ≠ some "" →
      SemanticVersion.comparePrecedence a b = tupleCmp (cmpKey a) (cmpKey b)) := by
  refine ⟨?_, comparePrecedence_antisym, ?_, ?_, ?_, comparePrecedence_eq_tupleCmp⟩
  · intro a
    simp [SemanticVersion.compare, SemanticVersion.comparePrecedence]
  · intro a b c ha hb hc hab hbc
    rw [comparePrecedence_eq_tupleCmp a b ha hb] at hab
    rw [comparePrecedence_eq_tupleCmp b c hb hc] at hbc
    rw [comparePrecedence_eq_tupleCmp a c ha hc]
    rcases lt_or_eq_of_le hab with h | h
    · rcases lt_or_eq_of_le hbc with h2 | h2
      · exact le_of_lt (lawful_tupleCmp.transLt _ _ _ h h2)
      · have he := (lawful_tupleCmp.eq_zero _ _).mp h2
        rw [← he]
        exact le_of_lt h
    · have he := (lawful_tupleCmp.eq_zero _ _).mp h
      rw [he]
      exact hbc
  · intro a b ha hb
    rw [comparePrecedence_eq_tupleCmp a b ha hb]
    exact lawful_tupleCmp.eq_zero _ _
  · intro a b e1 e2 e3 e4 e5
    simp [SemanticVersion.comparePrecedence, e1, e2, e3, e4, e5]

/-- Witness for C5 transitivity at three concrete Versions. -/
theorem c5_total_order_witness :
    SemanticVersion.comparePrecedence v123 vStrictFull ≤ 0 :=
  c5_comparePrecedence_total_order.2.2.1 v123 vFull vStrictFull
    (by decide) (by decide) (by decide) (by decide) (by decide)
